import Mathlib

/-!
Verification development for the document-segmentation-and-extraction core of the
CG_LLM repository:

* `pdf_rem_extractor.py` — remuneration-section boundary detection
  (`find_rem_candidate_indices`, `score_candidate`, `choose_best_rem_start`,
  `_score_page`, `find_end_page`, `extract_rem_section_from_pdf`);
* `financial_extractor.py` — windowed EPS/profit fact extraction with a
  whole-document fallback (`extract_financial_performance`);
* `postprocess_facts.py` — deterministic derived-fact enrichment
  (`postprocess_facts`).

Modelling conventions:
* Python strings are `List Char`; pages are `List (List Char)`.
* Python floats are modelled as exact rationals `Rat` (the claims under study are
  about control flow and exact formulas, not rounding).
* The fixed regular expressions of `pdf_rem_extractor.py` use only literal text,
  `'?`, `s?`, `[- ]`, `( ... )?` and `\b`; they are translated into a small token
  language `RTok` with a direct matcher (`matchToks`), a non-overlapping
  occurrence counter (`countMatches`, modelling `len(re.findall(...))`) and an
  existence search (`searchToks`, modelling `re.search(...) is not None`).
* Python dicts (fact records) are association lists in insertion order;
  `dict.get` with its `None`-for-missing behaviour is modelled by `pyGet`.
-/

namespace CGLLM

/-! ### Generic text primitives -/

/-- Python regex `\w` (ASCII view): letters, digits and underscore. -/
def isWordChar (c : Char) : Bool := c.isAlphanum || c == '_'

/-- Token language covering every construct used by the fixed regexes of
`pdf_rem_extractor.py`: literal characters, an optional single character
(`'?`, `s?`), a two-character class (`[- ]`), an optional literal group
(`(consolidated )?`) and the word boundary `\b`. -/
inductive RTok where
  | lit : Char → RTok
  | optc : Char → RTok
  | alt2 : Char → Char → RTok
  | optStr : List Char → RTok
  | wb : RTok

/-- If `p` is a prefix of `s`, return the rest of `s`. -/
def dropLit : List Char → List Char → Option (List Char)
  | [], rest => some rest
  | _ :: _, [] => none
  | p :: ps, r :: rs => if p == r then dropLit ps rs else none

/-- Match a token list at the start of `rest`, returning the number of characters
consumed.  `prev` is the character immediately before `rest` in the full text
(`none` at the start of the text); it is needed for `\b`.  Optional tokens are
greedy with backtracking, matching Python `re` semantics on these patterns. -/
def matchToks : List RTok → Option Char → List Char → Option Nat
  | [], _, _ => some 0
  | RTok.wb :: ts, prev, rest =>
      let before := match prev with | some c => isWordChar c | none => false
      let after := match rest with | c :: _ => isWordChar c | [] => false
      if before != after then matchToks ts prev rest else none
  | RTok.lit _ :: _, _, [] => none
  | RTok.lit c :: ts, _, r :: rs =>
      if r == c then (matchToks ts (some r) rs).map (· + 1) else none
  | RTok.optc c :: ts, prev, rest =>
      (match rest with
       | r :: rs =>
           if r == c then
             match matchToks ts (some r) rs with
             | some n => some (n + 1)
             | none => matchToks ts prev rest
           else matchToks ts prev rest
       | [] => matchToks ts prev rest)
  | RTok.alt2 _ _ :: _, _, [] => none
  | RTok.alt2 c d :: ts, _, r :: rs =>
      if r == c || r == d then (matchToks ts (some r) rs).map (· + 1) else none
  | RTok.optStr s :: ts, prev, rest =>
      (match dropLit s rest with
       | some rs =>
           match matchToks ts (match s.getLast? with | some c => some c | none => prev) rs with
           | some n => some (n + s.length)
           | none => matchToks ts prev rest
       | none => matchToks ts prev rest)

/-- Fuel-indexed scan counting non-overlapping matches left to right, as
`len(re.findall(pattern, s))` does.  The fuel is the length of the scanned
text, which bounds the number of scan steps. -/
def countMatchesFuel (toks : List RTok) : Nat → Option Char → List Char → Nat
  | 0, _, _ => 0
  | _ + 1, _, [] => 0
  | fuel + 1, prev, c :: rest =>
      match matchToks toks prev (c :: rest) with
      | some (n + 1) => 1 + countMatchesFuel toks fuel (some ((c :: rest).getD n c)) (rest.drop n)
      | some 0 => 1 + countMatchesFuel toks fuel (some c) rest
      | none => countMatchesFuel toks fuel (some c) rest

/-- `len(re.findall(toks, s))`: number of non-overlapping matches of `toks` in `s`. -/
def countMatches (toks : List RTok) (prev : Option Char) (s : List Char) : Nat :=
  countMatchesFuel toks s.length prev s

/-- `re.search(toks, s) is not None`: does `toks` match at some position of `s`? -/
def searchToks (toks : List RTok) : Option Char → List Char → Bool
  | prev, [] => (matchToks toks prev []).isSome
  | prev, c :: rest => (matchToks toks prev (c :: rest)).isSome || searchToks toks (some c) rest

/-- Literal characters of a string as pattern tokens. -/
def lits (s : String) : List RTok := s.toList.map RTok.lit

/-- `hay.find(needle)` (first index of `needle` in `hay`, counting from `k`). -/
def findSubFrom (needle : List Char) : List Char → Nat → Option Nat
  | hay, k =>
      if needle.isPrefixOf hay then some k
      else
        match hay with
        | [] => none
        | _ :: t => findSubFrom needle t (k + 1)

/-- `needle in hay` for strings. -/
def containsSub (hay needle : List Char) : Bool := (findSubFrom needle hay 0).isSome

/-- Helper for `wordCount`: `inWord` records whether the previous character was
part of a word. -/
def wordCountAux : Bool → List Char → Nat
  | _, [] => 0
  | inWord, c :: rest =>
      if c.isWhitespace then wordCountAux false rest
      else (if inWord then 0 else 1) + wordCountAux true rest

/-- `len(s.split())`: number of maximal whitespace-free runs. -/
def wordCount (s : List Char) : Nat := wordCountAux false s

/-- `"\n".join(chunks)`. -/
def joinNL (chunks : List (List Char)) : List Char := List.intercalate ['\n'] chunks

/-- `s.lower()` (ASCII view, adequate for the fixed lowercase patterns). -/
def lowerText (s : List Char) : List Char := s.map Char.toLower

/-! ### `pdf_rem_extractor.py` -/

/-- The apostrophe character, used by the `'?` regex construct. -/
def apos : Char := Char.ofNat 39

/-- `REM_REPORT_PATTERNS` (module constant, lines 6-10):
`remuneration report`, `remuneration report of the remuneration committee`,
`directors'? remuneration report`. -/
def REM_REPORT_PATTERNS : List (List RTok) :=
  [ lits "remuneration report"
  , lits "remuneration report of the remuneration committee"
  , lits "directors" ++ [RTok.optc apos] ++ lits " remuneration report" ]

/-- A page joins the candidate list iff some pattern of `REM_REPORT_PATTERNS`
matches its lowercased text (the `for pat ... break` loop of
`find_rem_candidate_indices`). -/
def matchesRemTitle (lower : List Char) : Bool :=
  REM_REPORT_PATTERNS.any (fun p => searchToks p none lower)

/-- `find_rem_candidate_indices(pages)` (lines 32-40): the indices of pages whose
lowercased text matches some start-of-section pattern, in page order. -/
def find_rem_candidate_indices (pages : List (List Char)) : List Nat :=
  (List.range pages.length).filter (fun idx => matchesRemTitle (lowerText (pages.getD idx [])))

/-- `score_candidate(pages, idx, window)` (lines 43-54): count of `remuneration`
occurrences and whitespace-token count over the page window `[idx, idx+window)`
clipped to the document. -/
def score_candidate (pages : List (List Char)) (idx window : Nat) : Nat × Nat :=
  let e := min pages.length (idx + window)
  let txt := joinNL ((pages.drop idx).take (e - idx))
  (countMatches (lits "remuneration") none (lowerText txt), wordCount txt)

/-- Lines 62-63 of `choose_best_rem_start`: drop candidates with index < 5 unless
that empties the list (`[i for i in candidates if i >= 5] or candidates`). -/
def surviving_candidates (pages : List (List Char)) : List Nat :=
  let candidates := find_rem_candidate_indices pages
  let filtered := candidates.filter (fun i => 5 ≤ i)
  if filtered.isEmpty then candidates else filtered

/-- The descending sort order used at line 71:
`scored.sort(key=lambda t: (t[1], t[2], t[0]), reverse=True)` — an entry `a` may
precede `b` iff `b`'s key `(rem_count, word_count, idx)` is lexicographically at
most `a`'s. -/
def scoredRel (a b : Nat × Nat × Nat) : Prop :=
  b.2.1 < a.2.1 ∨ (b.2.1 = a.2.1 ∧ (b.2.2 < a.2.2 ∨ (b.2.2 = a.2.2 ∧ b.1 ≤ a.1)))

instance : DecidableRel scoredRel := fun a b => by
  unfold scoredRel; exact inferInstance

instance : IsTotal (Nat × Nat × Nat) scoredRel :=
  ⟨by intro a b; unfold scoredRel; omega⟩

instance : IsTrans (Nat × Nat × Nat) scoredRel :=
  ⟨by intro a b c; unfold scoredRel; omega⟩

/-- `choose_best_rem_start(pages)` (lines 57-79): `None` when no candidate
exists; otherwise score the surviving candidates, sort the `(idx, rem_count,
word_count)` triples by `(rem_count, word_count, idx)` descending (Python's
stable sort is `insertionSort` of this total order) and return the first index. -/
def choose_best_rem_start (pages : List (List Char)) : Option Nat :=
  if (find_rem_candidate_indices pages).isEmpty then none
  else
    let scored := (surviving_candidates pages).map
      (fun idx => (idx, score_candidate pages idx 5))
    ((List.insertionSort scoredRel scored).head?).map Prod.fst

/-- `REM_KEYWORDS` (lines 87-107): in-section signal patterns. -/
def REM_KEYWORDS : List (List RTok) :=
  [ [RTok.wb] ++ lits "remuneration" ++ [RTok.wb]
  , [RTok.wb] ++ lits "compensation" ++ [RTok.wb]
  , [RTok.wb] ++ lits "directors" ++ [RTok.optc apos] ++ lits " remuneration" ++ [RTok.wb]
  , [RTok.wb] ++ lits "executive remuneration" ++ [RTok.wb]
  , [RTok.wb] ++ lits "managing board" ++ [RTok.wb]
  , [RTok.wb] ++ lits "supervisory board" ++ [RTok.wb]
  , [RTok.wb] ++ lits "board remuneration" ++ [RTok.wb]
  , [RTok.wb] ++ lits "non" ++ [RTok.alt2 '-' ' '] ++ lits "executive director" ++ [RTok.wb]
  , [RTok.wb] ++ lits "base salary" ++ [RTok.wb]
  , [RTok.wb] ++ lits "annual fixed salary" ++ [RTok.wb]
  , [RTok.wb] ++ lits "bonus" ++ [RTok.wb]
  , [RTok.wb] ++ lits "short" ++ [RTok.alt2 '-' ' '] ++ lits "term incentive" ++ [RTok.wb]
  , [RTok.wb] ++ lits "long" ++ [RTok.alt2 '-' ' '] ++ lits "term incentive" ++ [RTok.wb]
  , [RTok.wb] ++ lits "ltip" ++ [RTok.wb]
  , [RTok.wb] ++ lits "stip" ++ [RTok.wb]
  , [RTok.wb] ++ lits "total cash" ++ [RTok.wb]
  , [RTok.wb] ++ lits "pay ratio" ++ [RTok.wb]
  , [RTok.wb] ++ lits "termination benefit" ++ [RTok.wb]
  , [RTok.wb] ++ lits "severance" ++ [RTok.wb] ]

/-- `BREAK_KEYWORDS` (lines 110-124): out-of-section break patterns. -/
def BREAK_KEYWORDS : List (List RTok) :=
  [ [RTok.wb] ++ lits "consolidated financial statements" ++ [RTok.wb]
  , [RTok.wb] ++ lits "separate financial statements" ++ [RTok.wb]
  , [RTok.wb] ++ lits "financial statements" ++ [RTok.wb]
  , [RTok.wb] ++ lits "notes to the " ++ [RTok.optStr ("consolidated ".toList)] ++
      lits "financial statements" ++ [RTok.wb]
  , [RTok.wb] ++ lits "independent auditor" ++ [RTok.optc apos] ++ lits "s report" ++ [RTok.wb]
  , [RTok.wb] ++ lits "auditor" ++ [RTok.optc apos] ++ lits "s report" ++ [RTok.wb]
  , [RTok.wb] ++ lits "risk management" ++ [RTok.wb]
  , [RTok.wb] ++ lits "risk factors" ++ [RTok.wb]
  , [RTok.wb] ++ lits "corporate responsibility" ++ [RTok.wb]
  , [RTok.wb] ++ lits "sustainability report" ++ [RTok.wb]
  , [RTok.wb] ++ lits "non" ++ [RTok.alt2 '-' ' '] ++ lits "financial statement" ++ [RTok.wb]
  , [RTok.wb] ++ lits "management report" ++ [RTok.wb]
  , [RTok.wb] ++ lits "selected financial information" ++ [RTok.wb] ]

/-- `_score_page(text)` (lines 127-143): `(rem_score, break_score)` — total
occurrence counts of the in-section and break patterns in the lowercased text. -/
def _score_page (text : List Char) : Nat × Nat :=
  let lower := lowerText text
  ( REM_KEYWORDS.foldl (fun acc p => acc + countMatches p none lower) 0
  , BREAK_KEYWORDS.foldl (fun acc p => acc + countMatches p none lower) 0 )

/-- `range(start_idx, last_idx + 1)` as a list. -/
def idxRange (start_idx last_idx : Nat) : List Nat :=
  (List.range (last_idx + 1 - start_idx)).map (· + start_idx)

/-- The `for` loop of `find_end_page` (lines 171-189), instrumented: the result
is paired with a flag recording whether the heuristic break condition fired
(`true`) or the scan fell through to the fallback return (`false`). -/
def findEndGo (pages : List (List Char)) (start_idx min_pages max_gap : Nat) :
    List Nat → Nat → Nat → Nat × Bool
  | [], last_rem, _ => (max last_rem start_idx, false)
  | idx :: rest, last_rem, gap =>
      let text := pages.getD idx []
      let s := _score_page text
      let last_rem' := if 0 < s.1 then idx else last_rem
      let gap' := if 0 < s.1 then 0 else gap + 1
      if start_idx + min_pages ≤ idx ∧ max_gap ≤ gap' ∧ 0 < s.2 then
        (max last_rem' start_idx, true)
      else findEndGo pages start_idx min_pages max_gap rest last_rem' gap'

/-- `find_end_page` (lines 146-192) with the instrumentation flag of
`findEndGo`.  `last_idx = min(len(pages) - 1, start_idx + max_pages)`; with
natural-number subtraction an empty document gives `last_idx = 0`, on which the
loop body scores the empty default page and cannot break, so the result agrees
with Python's empty `range`. -/
def find_end_page_instr (pages : List (List Char))
    (start_idx max_pages min_pages max_gap : Nat) : Nat × Bool :=
  let last_idx := min (pages.length - 1) (start_idx + max_pages)
  findEndGo pages start_idx min_pages max_gap (idxRange start_idx last_idx) start_idx 0

/-- `find_end_page(pages, start_idx, max_pages, min_pages, max_gap_without_rem)`
(lines 146-192), 0-based index of the detected last section page. -/
def find_end_page (pages : List (List Char))
    (start_idx max_pages min_pages max_gap : Nat) : Nat :=
  (find_end_page_instr pages start_idx max_pages min_pages max_gap).1

/-- The last index in `[start_idx, last_idx]` whose page has positive in-section
signal, `start_idx` if none: the value tracked by `last_rem_like_idx`. -/
def lastSignalIdx (pages : List (List Char)) (start_idx last_idx : Nat) : Nat :=
  (idxRange start_idx last_idx).foldl
    (fun acc idx => if 0 < (_score_page (pages.getD idx [])).1 then idx else acc) start_idx

/-- The error message raised at line 207. -/
def secNotFoundMsg : String := "Could not find any Remuneration Report section in this PDF."

/-- `extract_rem_section_from_pdf` (lines 198-212) applied to already-loaded
page texts (`load_pdf_pages` is the external PDF-reading collaborator); the
`ValueError` becomes `Except.error`. -/
def extract_rem_section_from_pdf (pages : List (List Char)) :
    Except String (List Char × Nat × Nat) :=
  match choose_best_rem_start pages with
  | none => Except.error secNotFoundMsg
  | some start_page =>
      let end_page := find_end_page pages start_page 40 3 3
      Except.ok
        ( List.intercalate ['\n', '\n'] ((pages.drop start_page).take (end_page + 1 - start_page))
        , start_page, end_page )

/-! ### `financial_extractor.py` -/

/-- Split off the maximal leading run of decimal digits. -/
def takeDigits : List Char → List Char × List Char
  | [] => ([], [])
  | c :: rest =>
      if c.isDigit then
        let p := takeDigits rest
        (c :: p.1, p.2)
      else ([], c :: rest)

/-- Decimal digit run to a natural number. -/
def digitsToNat (ds : List Char) : Nat := ds.foldl (fun acc c => 10 * acc + (c.toNat - 48)) 0

/-- `float(s)` on the decimal shapes the extractor can meet: optional sign,
digits with at most one decimal point, at least one digit.  Other shapes fail
(`None`), as `float` raising does after the `except`. -/
def pyFloatParse (s : List Char) : Option Rat :=
  let sgn : Rat × List Char :=
    match s with
    | '-' :: t => (-1, t)
    | '+' :: t => (1, t)
    | t => (1, t)
  let ip := takeDigits sgn.2
  match ip.2 with
  | [] => if ip.1.isEmpty then none else some (sgn.1 * (digitsToNat ip.1 : Rat))
  | '.' :: r2 =>
      let fp := takeDigits r2
      if fp.2.isEmpty && !(ip.1.isEmpty && fp.1.isEmpty) then
        some (sgn.1 * ((digitsToNat ip.1 : Rat) + (digitsToNat fp.1 : Rat) / ((10 : Rat) ^ fp.1.length)))
      else none
  | _ => none

/-- `_parse_number(s)` (lines 27-34): strip thousands separators and spaces,
then parse; a failing parse is `None`, not an error. -/
def _parse_number (s : List Char) : Option Rat :=
  pyFloatParse (s.filter (fun c => !(c == ',' || c == ' ')))

/-- The compiled regular expressions of `extract_financial_performance`,
modelled as abstract text functions: the two page-classification pattern
families (lines 52-73, each lowercased-page predicate is `any(re.search(...))`)
and the three two-capture-group searches `eps_line_re` (lines 90-93),
`eps_line_re_alt` (lines 96-99) and `profit_line_re` (lines 102-105).  Every
theorem below holds for every instantiation, hence for the concrete compiled
patterns of the source. -/
structure FinRegexes where
  finStmtPat : List Char → Bool
  epsPat : List Char → Bool
  epsSearch : List Char → Option (List Char × List Char)
  epsSearchAlt : List Char → Option (List Char × List Char)
  profSearch : List Char → Option (List Char × List Char)

/-- `_find_page_indices(pages, patterns)` (lines 18-24) with the `any(...)`
pattern test folded into `pred`. -/
def _find_page_indices (pages : List (List Char)) (pred : List Char → Bool) : List Nat :=
  (List.range pages.length).filter (fun i => pred (lowerText (pages.getD i [])))

/-- `candidate_pages = sorted(set(financial_statement_pages + eps_pages))`
(line 76); the stable ascending sort of the deduplicated union. -/
def candidate_pages (R : FinRegexes) (pages : List (List Char)) : List Nat :=
  List.insertionSort (· ≤ ·)
    ((_find_page_indices pages R.finStmtPat ++ _find_page_indices pages R.epsPat).dedup)

/-- `window_start = max(0, idx - 10)` (line 111); `Nat` subtraction clips at 0. -/
def windowStart (idx : Nat) : Nat := idx - 10

/-- `window_end = min(len(pages), idx + 20)` (line 112). -/
def windowEnd (pages : List (List Char)) (idx : Nat) : Nat := min pages.length (idx + 20)

/-- `pages[window_start:window_end]` (line 113): the pages actually scanned for
candidate `idx`. -/
def windowPagesOf (pages : List (List Char)) (idx : Nat) : List (List Char) :=
  (pages.drop (windowStart idx)).take (windowEnd pages idx - windowStart idx)

/-- `window_text = "\n".join(pages[window_start:window_end])` (line 113). -/
def windowTextOf (pages : List (List Char)) (idx : Nat) : List Char :=
  joinNL (windowPagesOf pages idx)

/-- Modelled from the spec: "build the window `[max(0, idx-before),
min(lastPage, idx+after)]`" with both endpoints INCLUSIVE and
`before = 10, after = 20` — the window claim C5 asserts the code scans. -/
def windowPagesSpec (pages : List (List Char)) (idx : Nat) : List (List Char) :=
  (pages.drop (windowStart idx)).take (min (pages.length - 1) (idx + 20) + 1 - windowStart idx)

/-- The window the code actually scans, described with an inclusive upper
endpoint: pages `windowStart idx` through `min(lastPageIndex, idx + 19)`. -/
def windowPagesIncl (pages : List (List Char)) (idx : Nat) : List (List Char) :=
  (pages.drop (windowStart idx)).take (min (pages.length - 1) (idx + 19) + 1 - windowStart idx)

/-- Entries of the `source_pages` hint list, which Python fills with either page
numbers or the string `"full_pdf_search"`. -/
inductive PageRef where
  | num : Nat → PageRef
  | tag : List Char → PageRef

/-- The working dict `best` (lines 79-86), with the nested `sources` dict
flattened into its two snippet keys. -/
structure BestRec where
  eps_current : Option Rat
  eps_prior : Option Rat
  profit_current_k : Option Rat
  profit_prior_k : Option Rat
  source_pages : List PageRef
  eps_source_snippet : Option (List Char)
  profit_source_snippet : Option (List Char)

/-- The initial `best` dict (lines 79-86). -/
def emptyBest : BestRec :=
  { eps_current := none, eps_prior := none, profit_current_k := none, profit_prior_k := none
  , source_pages := [], eps_source_snippet := none, profit_source_snippet := none }

/-- `eps_m = eps_line_re.search(t); if not eps_m: eps_m = eps_line_re_alt.search(t)`
(lines 115-117 and 148-150). -/
def eps_match (R : FinRegexes) (txt : List Char) : Option (List Char × List Char) :=
  match R.epsSearch txt with
  | some m => some m
  | none => R.epsSearchAlt txt

/-- `t[t.lower().find(needle):][:500] if needle in t.lower() else None`
(lines 139-141 and 169-171). -/
def sourceSnippet (txt needle : List Char) : Option (List Char) :=
  match findSubFrom needle (lowerText txt) 0 with
  | some i => some ((txt.drop i).take 500)
  | none => none

/-- The `best` record written by the loop body on an EPS hit at candidate `idx`
(lines 121-142).  `scan_candidates` only calls this when `eps_match` succeeds;
the unreached `none` branch returns the untouched initial dict. -/
def window_best (R : FinRegexes) (pages : List (List Char)) (idx : Nat) : BestRec :=
  let wtext := windowTextOf pages idx
  let prof_m := R.profSearch wtext
  match eps_match R wtext with
  | some m =>
      { eps_current := _parse_number m.1
      , eps_prior := _parse_number m.2
      , profit_current_k := match prof_m with | some p => _parse_number p.1 | none => none
      , profit_prior_k := match prof_m with | some p => _parse_number p.2 | none => none
      , source_pages :=
          [PageRef.num (windowStart idx + 1), PageRef.num (idx + 1), PageRef.num (windowEnd pages idx)]
      , eps_source_snippet := sourceSnippet wtext ("earnings per share".toList)
      , profit_source_snippet := sourceSnippet wtext ("profit".toList) }
  | none => emptyBest

/-- The `for idx in candidate_pages` loop (lines 108-143): the first candidate
whose window matches either EPS pattern fills `best` and breaks; `none` when no
candidate window matches. -/
def scan_candidates (R : FinRegexes) (pages : List (List Char)) : List Nat → Option BestRec
  | [] => none
  | idx :: rest =>
      if (eps_match R (windowTextOf pages idx)).isSome then some (window_best R pages idx)
      else scan_candidates R pages rest

/-- The whole-document fallback (lines 146-172): rerun the same extraction over
the concatenated document text, keeping `best` unchanged when even that misses. -/
def full_doc_pass (R : FinRegexes) (pages : List (List Char)) (best : BestRec) : BestRec :=
  let full_text := joinNL pages
  let prof_m := R.profSearch full_text
  match eps_match R full_text with
  | some m =>
      { eps_current := _parse_number m.1
      , eps_prior := _parse_number m.2
      , profit_current_k := match prof_m with | some p => _parse_number p.1 | none => none
      , profit_prior_k := match prof_m with | some p => _parse_number p.2 | none => none
      , source_pages := [PageRef.tag ("full_pdf_search".toList)]
      , eps_source_snippet := sourceSnippet full_text ("earnings per share".toList)
      , profit_source_snippet := sourceSnippet full_text ("profit".toList) }
  | none => best

/-- The derived percentage change (lines 174-181): defined exactly when the
current value is present and the prior is present and non-zero
(`best[cur] is not None and best[prior] not in (None, 0)`). -/
def change_pct (current prior : Option Rat) : Option Rat :=
  match current, prior with
  | some c, some p => if p = 0 then none else some ((c - p) / p * 100)
  | _, _ => none

/-- The returned dict of `extract_financial_performance` (lines 183-192). -/
structure FinResult where
  eps_current : Option Rat
  eps_prior : Option Rat
  eps_change_pct : Option Rat
  profit_attributable_current_k : Option Rat
  profit_attributable_prior_k : Option Rat
  profit_attributable_change_pct : Option Rat
  financial_source_pages_hint : List PageRef
  eps_source_snippet : Option (List Char)
  profit_source_snippet : Option (List Char)

/-- Assemble the returned dict from the final `best` (lines 174-192). -/
def finalize_result (best : BestRec) : FinResult :=
  { eps_current := best.eps_current
  , eps_prior := best.eps_prior
  , eps_change_pct := change_pct best.eps_current best.eps_prior
  , profit_attributable_current_k := best.profit_current_k
  , profit_attributable_prior_k := best.profit_prior_k
  , profit_attributable_change_pct := change_pct best.profit_current_k best.profit_prior_k
  , financial_source_pages_hint := best.source_pages
  , eps_source_snippet := best.eps_source_snippet
  , profit_source_snippet := best.profit_source_snippet }

/-- `extract_financial_performance` (lines 37-192) applied to already-loaded
page texts (`_read_pdf_pages` is the external collaborator).  The fallback
fires on `best["eps_current"] is None`, which covers both "no window matched"
and (with the concrete regexes, impossible) "a window matched but its first
group did not parse". -/
def extract_financial_performance (R : FinRegexes) (pages : List (List Char)) : FinResult :=
  let candidates := candidate_pages R pages
  let best0 := (scan_candidates R pages candidates).getD emptyBest
  let best := if best0.eps_current.isNone then full_doc_pass R pages best0 else best0
  finalize_result best

/-- Does candidate `idx`'s window text match either EPS pattern? -/
def windowHasEps (R : FinRegexes) (pages : List (List Char)) (idx : Nat) : Bool :=
  (eps_match R (windowTextOf pages idx)).isSome

/-! ### `postprocess_facts.py` -/

/-- JSON-ish values of a facts dict. -/
inductive Val where
  | vnull : Val
  | vbool : Bool → Val
  | vnum : Rat → Val
  | vstr : String → Val
  | vlist : List Val → Val
  | vdict : List (String × Val) → Val

/-- A Python dict in insertion order. -/
abbrev FactRecord := List (String × Val)

/-- Raw key lookup: `none` when the key is missing. -/
def lookupFact : FactRecord → String → Option Val
  | [], _ => none
  | (k, v) :: rest, key => if k = key then some v else lookupFact rest key

/-- `d[key] = v`: overwrite in place, or append a fresh key at the end (Python
dicts keep insertion order). -/
def setFact : FactRecord → String → Val → FactRecord
  | [], key, v => [(key, v)]
  | (k, w) :: rest, key, v =>
      if k = key then (k, v) :: rest else (k, w) :: setFact rest key v

/-- `d.get(key)`: `None` when missing. -/
def pyGet (d : FactRecord) (key : String) : Val := (lookupFact d key).getD Val.vnull

/-- `d.get(key, default)`: the default only when the key is missing. -/
def getWithDefault (d : FactRecord) (key : String) (default : Val) : Val :=
  (lookupFact d key).getD default

/-- `v is None`. -/
def isVNull : Val → Bool
  | Val.vnull => true
  | _ => false

/-- Python truthiness: `not v`. -/
def isFalsy : Val → Bool
  | Val.vnull => true
  | Val.vbool b => !b
  | Val.vnum q => q == 0
  | Val.vstr s => s.isEmpty
  | Val.vlist l => l.isEmpty
  | Val.vdict d => d.isEmpty

/-- `v == "s"`: only a string value can equal a string literal. -/
def isStrEq : Val → String → Bool
  | Val.vstr t, s => t == s
  | _, _ => false

/-- Strip leading and trailing whitespace. -/
def stripWs (s : List Char) : List Char :=
  ((s.dropWhile Char.isWhitespace).reverse.dropWhile Char.isWhitespace).reverse

/-- `int("...")`: optional sign and decimal digits, whitespace tolerated. -/
def parseIntText (s : List Char) : Option Int :=
  let t := stripWs s
  let core : Int × List Char :=
    match t with
    | '-' :: r => (-1, r)
    | '+' :: r => (1, r)
    | r => (1, r)
  if !core.2.isEmpty && core.2.all Char.isDigit then
    some (core.1 * (digitsToNat core.2 : Int))
  else none

/-- Truncation toward zero, as Python `int(float)` does. -/
def ratTrunc (q : Rat) : Int := q.num.tdiv (q.den : Int)

/-- `int(v)` under `except (TypeError, ValueError)`: numbers truncate, booleans
are 0/1, integer-literal strings parse, everything else is a skipped failure. -/
def valToInt : Val → Option Int
  | Val.vnum q => some (ratTrunc q)
  | Val.vbool b => some (if b then 1 else 0)
  | Val.vstr s => parseIntText s.toList
  | _ => none

/-- `float(v)` under `except (TypeError, ValueError)`. -/
def valToFloat : Val → Option Rat
  | Val.vnum q => some q
  | Val.vbool b => some (if b then 1 else 0)
  | Val.vstr s => pyFloatParse (stripWs s.toList)
  | _ => none

/-- The `clean`-building loop of `_compute_salary_increase_pct_from_history`
(lines 19-27): rows failing `int`/`float` conversion are skipped
(`TypeError`/`ValueError` are caught), but a non-dict row has no `.get` and
raises an uncaught `AttributeError`, modelled as `Except.error`. -/
def buildClean : List Val → Except Unit (List (Int × Rat))
  | [] => Except.ok []
  | row :: rest =>
      match row with
      | Val.vdict d =>
          (buildClean rest).map (fun tail =>
            match valToInt (pyGet d "year"), valToFloat (pyGet d "amount") with
            | some y, some a => (y, a) :: tail
            | _, _ => tail)
      | _ => Except.error ()

/-- `_compute_salary_increase_pct_from_history(salary_history)` (lines 6-42). -/
def _compute_salary_increase_pct_from_history (salary_history : Val) :
    Except Unit (Option Rat) :=
  match salary_history with
  | Val.vlist rows =>
      if rows.length < 2 then Except.ok none
      else
        match buildClean rows with
        | Except.error e => Except.error e
        | Except.ok clean =>
            if clean.length < 2 then Except.ok none
            else
              let sorted := List.insertionSort (fun a b : Int × Rat => a.1 ≤ b.1) clean
              match sorted.getLast?, sorted.dropLast.getLast? with
              | some latest, some previous =>
                  if previous.2 ≤ 0 then Except.ok none
                  else Except.ok (some ((latest.2 - previous.2) / previous.2 * 100))
              | _, _ => Except.ok none
  | _ => Except.ok none

/-- `_compute_total_esg_weight(metrics)` (lines 45-73): sum `weight_pct` over
entries with `category == "esg"`; `None` (not zero) when no entry qualifies.
A missing weight (`None`) and an unconvertible weight are both skipped. -/
def _compute_total_esg_weight (metrics : Val) : Option Rat :=
  match metrics with
  | Val.vlist ms =>
      let tc := ms.foldl
        (fun (tc : Rat × Nat) m =>
          match m with
          | Val.vdict d =>
              if isStrEq (pyGet d "category") "esg" then
                match valToFloat (pyGet d "weight_pct") with
                | some w => (tc.1 + w, tc.2 + 1)
                | none => tc
              else tc
          | _ => tc) ((0 : Rat), (0 : Nat))
      if tc.2 = 0 then none else some tc.1
  | _ => none

/-- Does a metric list contain an entry with `category == "esg"`?  Non-list
values contribute nothing (`isinstance` guards). -/
def hasEsgIn (metrics : Val) : Bool :=
  match metrics with
  | Val.vlist ms =>
      ms.any (fun m =>
        match m with
        | Val.vdict d => isStrEq (pyGet d "category") "esg"
        | _ => false)
  | _ => false

/-- `_has_any_esg_metric(sti_metrics, ltip_metrics)` (lines 76-87). -/
def _has_any_esg_metric (sti ltip : Val) : Bool := hasEsgIn sti || hasEsgIn ltip

/-- The provenance note written at lines 110-112. -/
def srcNoteText : String := "Computed from ceo_salary_history as latest vs previous year."

/-- Lines 101-112: fill `ceo_salary_increase_pct` (and, when the existing note
is falsy, `ceo_salary_increase_pct_source`) from the salary history. -/
def salaryBlock (facts : FactRecord) : Except Unit FactRecord :=
  if isVNull (pyGet facts "ceo_salary_increase_pct") then
    match _compute_salary_increase_pct_from_history
        (getWithDefault facts "ceo_salary_history" (Val.vlist [])) with
    | Except.error e => Except.error e
    | Except.ok none => Except.ok facts
    | Except.ok (some increase) =>
        let f := setFact facts "ceo_salary_increase_pct" (Val.vnum increase)
        Except.ok
          (if isFalsy (pyGet f "ceo_salary_increase_pct_source") then
            setFact f "ceo_salary_increase_pct_source" (Val.vstr srcNoteText)
          else f)
  else Except.ok facts

/-- Lines 118-121: fill `sti_total_esg_weight_pct`. -/
def stiBlock (facts : FactRecord) (sti_metrics : Val) : FactRecord :=
  if isVNull (pyGet facts "sti_total_esg_weight_pct") then
    match _compute_total_esg_weight sti_metrics with
    | some w => setFact facts "sti_total_esg_weight_pct" (Val.vnum w)
    | none => facts
  else facts

/-- Lines 123-126: fill `ltip_total_esg_weight_pct`. -/
def ltipBlock (facts : FactRecord) (ltip_metrics : Val) : FactRecord :=
  if isVNull (pyGet facts "ltip_total_esg_weight_pct") then
    match _compute_total_esg_weight ltip_metrics with
    | some w => setFact facts "ltip_total_esg_weight_pct" (Val.vnum w)
    | none => facts
  else facts

/-- Lines 129-132: fill the `esg_metrics_incentives_present` flag (always a
boolean once filled). -/
def esgBlock (facts : FactRecord) (sti_metrics ltip_metrics : Val) : FactRecord :=
  if isVNull (pyGet facts "esg_metrics_incentives_present") then
    setFact facts "esg_metrics_incentives_present"
      (Val.vbool (_has_any_esg_metric sti_metrics ltip_metrics))
  else facts

/-- `postprocess_facts(facts)` (lines 90-134): the salary block, then a single
read of `sti_metrics`/`ltip_metrics` feeding the two weight blocks and the
presence flag.  The only possible exception is the `AttributeError` of the
salary history loop. -/
def postprocess_facts (facts : FactRecord) : Except Unit FactRecord :=
  match salaryBlock facts with
  | Except.error e => Except.error e
  | Except.ok f1 =>
      let sti_metrics := getWithDefault f1 "sti_metrics" (Val.vlist [])
      let ltip_metrics := getWithDefault f1 "ltip_metrics" (Val.vlist [])
      Except.ok (esgBlock (ltipBlock (stiBlock f1 sti_metrics) ltip_metrics) sti_metrics ltip_metrics)

/-! ### Concrete sample inputs used by witnesses and counterexamples -/

/-- A concrete instantiation of the abstract regex slots, used by witnesses:
the EPS search hits exactly when the text contains the defining phrase, and
returns two digit groups (as the concrete source regexes always do). -/
def sampleFinR : FinRegexes :=
  { finStmtPat := fun w => containsSub w ("financial statements".toList)
  , epsPat := fun w => containsSub w ("earnings per share".toList)
  , epsSearch := fun w =>
      if containsSub w ("earnings per share".toList) then
        some ("12".toList, "10".toList)
      else none
  , epsSearchAlt := fun _ => none
  , profSearch := fun _ => none }

/-- A one-page document whose single page yields an EPS hit. -/
def samplePagesEps : List (List Char) := ["earnings per share 12 10".toList]

/-- 21 identical pages matching the financial-statement patterns: enough pages
to expose the inclusive/exclusive window-endpoint discrepancy at `idx = 0`. -/
def pagesFin21 : List (List Char) := List.replicate 21 ("financial statements".toList)

/-- A fact record with one foreign key and an explicitly supplied increase. -/
def sampleFactsRec : FactRecord :=
  [("company_name", Val.vstr "Acme"), ("ceo_salary_increase_pct", Val.vnum 3)]

/-- `postprocess_facts sampleFactsRec` fills exactly the presence flag. -/
def sampleFactsOut : FactRecord :=
  sampleFactsRec ++ [("esg_metrics_incentives_present", Val.vbool false)]

/-! ### Lemmas about the end-of-section scan -/

theorem idxRange_le {s e i : Nat} (h : i ∈ idxRange s e) : i ≤ e := by
  unfold idxRange at h
  rcases List.mem_map.mp h with ⟨j, hj, rfl⟩
  have := List.mem_range.mp hj
  omega

theorem findEndGo_ge (pages : List (List Char)) (s mp mg : Nat) :
    ∀ (l : List Nat) (lr gap : Nat), s ≤ (findEndGo pages s mp mg l lr gap).1
  | [], lr, gap => by
      simp only [findEndGo]
      exact le_max_right _ _
  | idx :: rest, lr, gap => by
      by_cases hrem : 0 < (_score_page (pages.getD idx [])).1 <;>
        simp only [findEndGo, hrem, if_true, if_false, ite_true, ite_false] <;>
        split
      · exact le_max_right _ _
      · exact findEndGo_ge pages s mp mg rest _ _
      · exact le_max_right _ _
      · exact findEndGo_ge pages s mp mg rest _ _

theorem findEndGo_le (pages : List (List Char)) (s mp mg B : Nat) :
    ∀ (l : List Nat) (lr gap : Nat), (∀ i ∈ l, i ≤ B) → lr ≤ B → s ≤ B →
      (findEndGo pages s mp mg l lr gap).1 ≤ B
  | [], lr, gap, _, hlr, hs => by
      simp only [findEndGo]
      exact max_le hlr hs
  | idx :: rest, lr, gap, hl, hlr, hs => by
      have hidx : idx ≤ B := hl idx (List.mem_cons_self _ _)
      have htail : ∀ i ∈ rest, i ≤ B := fun i hi => hl i (List.mem_cons_of_mem _ hi)
      by_cases hrem : 0 < (_score_page (pages.getD idx [])).1 <;>
        simp only [findEndGo, hrem, if_true, if_false, ite_true, ite_false] <;>
        split
      · exact max_le hidx hs
      · exact findEndGo_le pages s mp mg B rest _ _ htail hidx hs
      · exact max_le hlr hs
      · exact findEndGo_le pages s mp mg B rest _ _ htail hlr hs

theorem findEndGo_no_break (pages : List (List Char)) (s mp mg : Nat) :
    ∀ (l : List Nat) (lr gap : Nat),
      (findEndGo pages s mp mg l lr gap).2 = false →
      (findEndGo pages s mp mg l lr gap).1 =
        max (l.foldl (fun acc idx =>
          if 0 < (_score_page (pages.getD idx [])).1 then idx else acc) lr) s
  | [], lr, gap, _ => by simp [findEndGo]
  | idx :: rest, lr, gap, h => by
      by_cases hrem : 0 < (_score_page (pages.getD idx [])).1 <;>
        simp only [findEndGo, hrem, if_true, if_false, ite_true, ite_false,
          List.foldl_cons] at h ⊢ <;>
        split at h
      · simp at h
      · rename_i hC
        rw [if_neg hC]
        exact findEndGo_no_break pages s mp mg rest _ _ h
      · simp at h
      · rename_i hC
        rw [if_neg hC]
        exact findEndGo_no_break pages s mp mg rest _ _ h

theorem max_keeps_signal (pages : List (List Char)) (s lr : Nat)
    (h : lr = s ∨ 0 < (_score_page (pages.getD lr [])).1) :
    max lr s = s ∨ 0 < (_score_page (pages.getD (max lr s) [])).1 := by
  rcases h with h | h
  · left; rw [h]; exact max_self s
  · rcases Nat.le_total lr s with hle | hle
    · left; exact max_eq_right hle
    · right; rw [max_eq_left hle]; exact h

theorem findEndGo_signal (pages : List (List Char)) (s mp mg : Nat) :
    ∀ (l : List Nat) (lr gap : Nat),
      (lr = s ∨ 0 < (_score_page (pages.getD lr [])).1) →
      ((findEndGo pages s mp mg l lr gap).1 = s ∨
        0 < (_score_page (pages.getD ((findEndGo pages s mp mg l lr gap).1) [])).1)
  | [], lr, gap, hP => by
      simp only [findEndGo]
      exact max_keeps_signal pages s lr hP
  | idx :: rest, lr, gap, hP => by
      by_cases hrem : 0 < (_score_page (pages.getD idx [])).1 <;>
        simp only [findEndGo, hrem, if_true, if_false, ite_true, ite_false] <;>
        split
      · exact max_keeps_signal pages s _ (Or.inr hrem)
      · exact findEndGo_signal pages s mp mg rest _ _ (Or.inr hrem)
      · exact max_keeps_signal pages s _ hP
      · exact findEndGo_signal pages s mp mg rest _ _ hP

/-! ### Lemmas about candidate selection -/

theorem mem_candidates_lt {pages : List (List Char)} {i : Nat}
    (h : i ∈ find_rem_candidate_indices pages) : i < pages.length := by
  unfold find_rem_candidate_indices at h
  exact List.mem_range.mp (List.mem_filter.mp h).1

theorem surviving_subset {pages : List (List Char)} {i : Nat}
    (h : i ∈ surviving_candidates pages) : i ∈ find_rem_candidate_indices pages := by
  simp only [surviving_candidates] at h
  split at h
  · exact h
  · exact (List.mem_filter.mp h).1

theorem choose_some_sorted {pages : List (List Char)} {s : Nat}
    (h : choose_best_rem_start pages = some s) :
    s ∈ surviving_candidates pages ∧
    ∃ rest, List.insertionSort scoredRel
        ((surviving_candidates pages).map (fun idx => (idx, score_candidate pages idx 5))) =
      (s, score_candidate pages s 5) :: rest := by
  simp only [choose_best_rem_start] at h
  split at h
  · exact absurd h (by simp)
  · cases hs : List.insertionSort scoredRel
        ((surviving_candidates pages).map (fun idx => (idx, score_candidate pages idx 5))) with
    | nil => rw [hs] at h; simp at h
    | cons t rest =>
        rw [hs] at h
        simp only [List.head?_cons, Option.map_some'] at h
        have ht2 : t ∈ (surviving_candidates pages).map
            (fun idx => (idx, score_candidate pages idx 5)) :=
          (List.perm_insertionSort scoredRel _).subset (hs ▸ List.mem_cons_self t rest)
        rcases List.mem_map.mp ht2 with ⟨a, ha, rfl⟩
        have has : a = s := Option.some.inj h
        subst has
        exact ⟨ha, rest, rfl⟩

theorem candidates_empty_iff (pages : List (List Char)) :
    find_rem_candidate_indices pages = [] ↔
      ∀ t ∈ pages, matchesRemTitle (lowerText t) = false := by
  unfold find_rem_candidate_indices
  rw [List.filter_eq_nil_iff]
  constructor
  · intro h t ht
    rcases List.mem_iff_getElem.mp ht with ⟨i, hi, rfl⟩
    have := h i (List.mem_range.mpr hi)
    rw [List.getD_eq_getElem pages [] hi] at this
    simpa using this
  · intro h i hi
    have hi' := List.mem_range.mp hi
    rw [List.getD_eq_getElem pages [] hi']
    simp [h pages[i] (List.getElem_mem hi')]

theorem surviving_ne_nil {pages : List (List Char)}
    (h : find_rem_candidate_indices pages ≠ []) : surviving_candidates pages ≠ [] := by
  simp only [surviving_candidates]
  split
  · exact h
  · rename_i hf
    intro hcon
    rw [hcon] at hf
    simp at hf

theorem choose_none_iff (pages : List (List Char)) :
    choose_best_rem_start pages = none ↔ find_rem_candidate_indices pages = [] := by
  constructor
  · intro h
    by_contra hne
    simp only [choose_best_rem_start] at h
    rw [if_neg (by simpa [List.isEmpty_iff] using hne)] at h
    cases hsort : List.insertionSort scoredRel
        ((surviving_candidates pages).map (fun idx => (idx, score_candidate pages idx 5))) with
    | nil =>
        have hlen := (List.perm_insertionSort scoredRel
          ((surviving_candidates pages).map (fun idx => (idx, score_candidate pages idx 5)))).length_eq
        rw [hsort] at hlen
        simp only [List.length_nil, List.length_map] at hlen
        exact surviving_ne_nil hne (List.length_eq_zero.mp hlen.symm)
    | cons t rest =>
        rw [hsort] at h
        simp at h
  · intro h
    simp [choose_best_rem_start, h]

/-! ### Lemmas about the windowed fact scanner -/

theorem candidate_pages_pairwise (R : FinRegexes) (pages : List (List Char)) :
    List.Pairwise (· < ·) (candidate_pages R pages) := by
  have hsorted : List.Sorted (· ≤ ·) (candidate_pages R pages) :=
    List.sorted_insertionSort _ _
  have hnodup : (candidate_pages R pages).Nodup :=
    ((List.perm_insertionSort _ _).symm).nodup (List.nodup_dedup _)
  exact (List.Pairwise.and hsorted hnodup).imp
    (fun h => lt_of_le_of_ne h.1 h.2)

theorem scan_first_hit (R : FinRegexes) (pages : List (List Char)) :
    ∀ (l : List Nat) (j : Nat), List.Pairwise (· < ·) l →
      j ∈ l → windowHasEps R pages j = true →
      (∀ i ∈ l, i < j → windowHasEps R pages i = false) →
      scan_candidates R pages l = some (window_best R pages j)
  | [], j, _, hj, _, _ => absurd hj (List.not_mem_nil j)
  | a :: l', j, hpw, hj, hhit, hmin => by
      simp only [scan_candidates]
      rcases List.mem_cons.mp hj with rfl | hj'
      · simp only [windowHasEps] at hhit
        rw [if_pos hhit]
      · have haj : a < j := (List.pairwise_cons.mp hpw).1 j hj'
        have ha : windowHasEps R pages a = false :=
          hmin a (List.mem_cons_self _ _) haj
        simp only [windowHasEps] at ha
        rw [if_neg (by simp [ha])]
        exact scan_first_hit R pages l' j (List.pairwise_cons.mp hpw).2 hj' hhit
          (fun i hi hlt => hmin i (List.mem_cons_of_mem _ hi) hlt)

theorem scan_no_hit (R : FinRegexes) (pages : List (List Char)) :
    ∀ (l : List Nat), (∀ i ∈ l, windowHasEps R pages i = false) →
      scan_candidates R pages l = none
  | [], _ => rfl
  | a :: l', h => by
      have ha := h a (List.mem_cons_self _ _)
      simp only [windowHasEps] at ha
      simp only [scan_candidates]
      rw [if_neg (by simp [ha])]
      exact scan_no_hit R pages l' (fun i hi => h i (List.mem_cons_of_mem _ hi))

/-! ### Lemmas about fact-record postprocessing -/

theorem eq_false_of_not_true {b : Bool} (h : ¬ b = true) : b = false := by
  cases b
  · rfl
  · exact absurd rfl h

theorem lookup_set_same (f : FactRecord) (k : String) (v : Val) :
    lookupFact (setFact f k v) k = some v := by
  induction f with
  | nil => simp [setFact, lookupFact]
  | cons kv rest ih =>
      obtain ⟨k', w⟩ := kv
      by_cases h : k' = k
      · simp [setFact, lookupFact, h]
      · simp [setFact, lookupFact, h, ih]

theorem lookup_set_other (f : FactRecord) (k key : String) (v : Val) (hne : k ≠ key) :
    lookupFact (setFact f key v) k = lookupFact f k := by
  have hne' : ¬ key = k := fun h => hne h.symm
  induction f with
  | nil => simp [setFact, lookupFact, hne']
  | cons kv rest ih =>
      obtain ⟨k', w⟩ := kv
      by_cases h : k' = key
      · subst h
        simp [setFact, lookupFact, hne']
      · by_cases h2 : k' = k
        · subst h2
          simp [setFact, lookupFact, hne]
        · simp [setFact, lookupFact, h, h2, ih]

theorem lookup_set_preserves (f : FactRecord) (key : String) (v : Val) (k : String)
    (h : (lookupFact f k).isSome) : (lookupFact (setFact f key v) k).isSome := by
  by_cases hk : k = key
  · subst hk
    rw [lookup_set_same]
    rfl
  · rw [lookup_set_other f k key v hk]
    exact h

theorem stiBlock_lookup_ne (f : FactRecord) (m : Val) (k : String)
    (hk : k ≠ "sti_total_esg_weight_pct") :
    lookupFact (stiBlock f m) k = lookupFact f k := by
  unfold stiBlock
  split
  · split
    · exact lookup_set_other f k _ _ hk
    · rfl
  · rfl

theorem ltipBlock_lookup_ne (f : FactRecord) (m : Val) (k : String)
    (hk : k ≠ "ltip_total_esg_weight_pct") :
    lookupFact (ltipBlock f m) k = lookupFact f k := by
  unfold ltipBlock
  split
  · split
    · exact lookup_set_other f k _ _ hk
    · rfl
  · rfl

theorem esgBlock_lookup_ne (f : FactRecord) (a b : Val) (k : String)
    (hk : k ≠ "esg_metrics_incentives_present") :
    lookupFact (esgBlock f a b) k = lookupFact f k := by
  unfold esgBlock
  split
  · exact lookup_set_other f k _ _ hk
  · rfl

theorem salaryBlock_lookup_ne {f g : FactRecord} (h : salaryBlock f = Except.ok g)
    (k : String) (h1 : k ≠ "ceo_salary_increase_pct")
    (h2 : k ≠ "ceo_salary_increase_pct_source") :
    lookupFact g k = lookupFact f k := by
  unfold salaryBlock at h
  split at h
  · split at h
    · exact absurd h (by simp)
    · obtain rfl := Except.ok.inj h
      rfl
    · obtain rfl := Except.ok.inj h
      split
      · rw [lookup_set_other _ _ _ _ h2, lookup_set_other _ _ _ _ h1]
      · rw [lookup_set_other _ _ _ _ h1]
  · obtain rfl := Except.ok.inj h
    rfl

theorem stiBlock_preserves (f : FactRecord) (m : Val) (k : String)
    (hs : (lookupFact f k).isSome) : (lookupFact (stiBlock f m) k).isSome := by
  unfold stiBlock
  split
  · split
    · exact lookup_set_preserves _ _ _ _ hs
    · exact hs
  · exact hs

theorem ltipBlock_preserves (f : FactRecord) (m : Val) (k : String)
    (hs : (lookupFact f k).isSome) : (lookupFact (ltipBlock f m) k).isSome := by
  unfold ltipBlock
  split
  · split
    · exact lookup_set_preserves _ _ _ _ hs
    · exact hs
  · exact hs

theorem esgBlock_preserves (f : FactRecord) (a b : Val) (k : String)
    (hs : (lookupFact f k).isSome) : (lookupFact (esgBlock f a b) k).isSome := by
  unfold esgBlock
  split
  · exact lookup_set_preserves _ _ _ _ hs
  · exact hs

theorem salaryBlock_preserves {f g : FactRecord} (h : salaryBlock f = Except.ok g)
    (k : String) (hs : (lookupFact f k).isSome) : (lookupFact g k).isSome := by
  unfold salaryBlock at h
  split at h
  · split at h
    · exact absurd h (by simp)
    · obtain rfl := Except.ok.inj h
      exact hs
    · obtain rfl := Except.ok.inj h
      split
      · exact lookup_set_preserves _ _ _ _ (lookup_set_preserves _ _ _ _ hs)
      · exact lookup_set_preserves _ _ _ _ hs
  · obtain rfl := Except.ok.inj h
    exact hs

theorem postprocess_inv {f g : FactRecord} (h : postprocess_facts f = Except.ok g) :
    ∃ f1, salaryBlock f = Except.ok f1 ∧
      g = esgBlock (ltipBlock (stiBlock f1 (getWithDefault f1 "sti_metrics" (Val.vlist [])))
            (getWithDefault f1 "ltip_metrics" (Val.vlist [])))
          (getWithDefault f1 "sti_metrics" (Val.vlist []))
          (getWithDefault f1 "ltip_metrics" (Val.vlist [])) := by
  unfold postprocess_facts at h
  split at h
  · exact absurd h (by simp)
  · rename_i f1 heq
    exact ⟨f1, heq, (Except.ok.inj h).symm⟩

theorem salaryBlock_skip {f : FactRecord}
    (h : isVNull (pyGet f "ceo_salary_increase_pct") = false) :
    salaryBlock f = Except.ok f := by
  simp [salaryBlock, h]

theorem salaryBlock_idle {f : FactRecord}
    (h : _compute_salary_increase_pct_from_history
      (getWithDefault f "ceo_salary_history" (Val.vlist [])) = Except.ok none) :
    salaryBlock f = Except.ok f := by
  unfold salaryBlock
  split
  · simp [h]
  · rfl

theorem stiBlock_skip {f : FactRecord} {m : Val}
    (h : isVNull (pyGet f "sti_total_esg_weight_pct") = false) : stiBlock f m = f := by
  simp [stiBlock, h]

theorem stiBlock_idle {f : FactRecord} {m : Val}
    (h : _compute_total_esg_weight m = none) : stiBlock f m = f := by
  unfold stiBlock
  split
  · simp [h]
  · rfl

theorem ltipBlock_skip {f : FactRecord} {m : Val}
    (h : isVNull (pyGet f "ltip_total_esg_weight_pct") = false) : ltipBlock f m = f := by
  simp [ltipBlock, h]

theorem ltipBlock_idle {f : FactRecord} {m : Val}
    (h : _compute_total_esg_weight m = none) : ltipBlock f m = f := by
  unfold ltipBlock
  split
  · simp [h]
  · rfl

theorem esgBlock_skip {f : FactRecord} {a b : Val}
    (h : isVNull (pyGet f "esg_metrics_incentives_present") = false) : esgBlock f a b = f := by
  simp [esgBlock, h]

theorem salary_key_after {f f1 : FactRecord} (h : salaryBlock f = Except.ok f1)
    (hnull : isVNull (pyGet f1 "ceo_salary_increase_pct") = true) :
    f1 = f ∧ _compute_salary_increase_pct_from_history
      (getWithDefault f "ceo_salary_history" (Val.vlist [])) = Except.ok none := by
  unfold salaryBlock at h
  split at h
  · split at h
    · exact absurd h (by simp)
    · rename_i heq
      obtain rfl := Except.ok.inj h
      exact ⟨rfl, heq⟩
    · rename_i inc heq
      obtain rfl := Except.ok.inj h
      exfalso
      revert hnull
      split
      · unfold pyGet
        rw [lookup_set_other _ _ _ _ (by decide), lookup_set_same]
        simp [isVNull]
      · unfold pyGet
        rw [lookup_set_same]
        simp [isVNull]
  · obtain rfl := Except.ok.inj h
    rename_i hg
    exact absurd hnull hg

theorem sti_key_after {f : FactRecord} {m : Val}
    (hnull : isVNull (pyGet (stiBlock f m) "sti_total_esg_weight_pct") = true) :
    stiBlock f m = f ∧ _compute_total_esg_weight m = none := by
  revert hnull
  unfold stiBlock
  split
  · split
    · rename_i w heq
      intro hnull
      exfalso
      revert hnull
      unfold pyGet
      rw [lookup_set_same]
      simp [isVNull]
    · rename_i heq
      exact fun _ => ⟨rfl, heq⟩
  · rename_i hg
    intro hnull
    exact absurd hnull hg

theorem ltip_key_after {f : FactRecord} {m : Val}
    (hnull : isVNull (pyGet (ltipBlock f m) "ltip_total_esg_weight_pct") = true) :
    ltipBlock f m = f ∧ _compute_total_esg_weight m = none := by
  revert hnull
  unfold ltipBlock
  split
  · split
    · rename_i w heq
      intro hnull
      exfalso
      revert hnull
      unfold pyGet
      rw [lookup_set_same]
      simp [isVNull]
    · rename_i heq
      exact fun _ => ⟨rfl, heq⟩
  · rename_i hg
    intro hnull
    exact absurd hnull hg

theorem esg_key_after (f : FactRecord) (a b : Val) :
    isVNull (pyGet (esgBlock f a b) "esg_metrics_incentives_present") = false := by
  unfold esgBlock
  split
  · unfold pyGet
    rw [lookup_set_same]
    simp [isVNull]
  · rename_i hg
    exact eq_false_of_not_true hg

/-! ### Claim theorems -/

/-- C1, counterexample: on a 45-page document of empty pages, the scan from
page 0 with the default parameters reaches `start + maxPages` without the break
condition ever triggering, yet `find_end_page` returns 0, not the claimed bound
`min(lastPageIndex, start + maxPages) = 40`. -/
theorem claim_C1_counterexample :
    (find_end_page_instr (List.replicate 45 ([] : List Char)) 0 40 3 3).2 = false ∧
    find_end_page (List.replicate 45 ([] : List Char)) 0 40 3 3 ≠
      min ((List.replicate 45 ([] : List Char)).length - 1) (0 + 40) := by
  constructor
  · decide
  · decide

/-- C1, amended: if the forward scan of `find_end_page` reaches
`startIdx + maxPages` (clipped to the last page index) without the break
condition ever triggering, `find_end_page` returns `max(lastSignalIdx,
startIdx)` — the last scanned page with positive in-section signal (`startIdx`
when there is none) — not the scan bound itself. -/
theorem claim_C1 (pages : List (List Char)) (start_idx max_pages min_pages max_gap : Nat)
    (h : (find_end_page_instr pages start_idx max_pages min_pages max_gap).2 = false) :
    find_end_page pages start_idx max_pages min_pages max_gap =
      max (lastSignalIdx pages start_idx (min (pages.length - 1) (start_idx + max_pages)))
        start_idx := by
  unfold find_end_page find_end_page_instr lastSignalIdx
  unfold find_end_page_instr at h
  exact findEndGo_no_break pages start_idx min_pages max_gap _ _ _ h

/-- C1, witness for the amended theorem at the all-empty 45-page document. -/
theorem claim_C1_witness :
    find_end_page (List.replicate 45 ([] : List Char)) 0 40 3 3 =
      max (lastSignalIdx (List.replicate 45 ([] : List Char)) 0
        (min ((List.replicate 45 ([] : List Char)).length - 1) (0 + 40))) 0 :=
  claim_C1 (List.replicate 45 ([] : List Char)) 0 40 3 3 (by decide)

/-- C2: whenever boundary detection succeeds on a non-empty document, the
returned section range satisfies `0 ≤ startPage ≤ endPage ≤ lastPageIndex`. -/
theorem claim_C2 (pages : List (List Char)) (txt : List Char) (s e : Nat)
    (hne : pages ≠ [])
    (h : extract_rem_section_from_pdf pages = Except.ok (txt, s, e)) :
    0 ≤ s ∧ s ≤ e ∧ e ≤ pages.length - 1 := by
  cases hc : choose_best_rem_start pages with
  | none =>
      simp only [extract_rem_section_from_pdf, hc] at h
      exact absurd h (by simp)
  | some sp =>
      simp only [extract_rem_section_from_pdf, hc] at h
      simp only [Except.ok.injEq, Prod.mk.injEq] at h
      obtain ⟨-, rfl, rfl⟩ := h
      refine ⟨Nat.zero_le _, ?_, ?_⟩
      · unfold find_end_page find_end_page_instr
        exact findEndGo_ge pages sp 3 3 _ _ _
      · have hmem := surviving_subset (choose_some_sorted hc).1
        have hlt : sp < pages.length := mem_candidates_lt hmem
        unfold find_end_page find_end_page_instr
        apply findEndGo_le
        · intro i hi
          have := idxRange_le hi
          omega
        · omega
        · omega

/-- C2, witness: a six-page document whose last page starts the section gives
the range (5, 5) inside bounds. -/
theorem claim_C2_witness :
    0 ≤ 5 ∧ 5 ≤ 5 ∧
      5 ≤ ([[], [], [], [], [], ("remuneration report".toList : List Char)] :
        List (List Char)).length - 1 :=
  claim_C2 [[], [], [], [], [], "remuneration report".toList]
    ("remuneration report".toList) 5 5 (by decide) (by rfl)

/-- C3: extraction fails — and fails with the section-not-found error — exactly
when no page matches any start-of-section title pattern; whenever some page
matches (wherever it is, front matter included), extraction returns a result
and no other condition produces an error. -/
theorem claim_C3 (pages : List (List Char)) :
    (extract_rem_section_from_pdf pages = Except.error secNotFoundMsg ↔
      ∀ t ∈ pages, matchesRemTitle (lowerText t) = false) ∧
    ((∃ t ∈ pages, matchesRemTitle (lowerText t) = true) →
      ∃ r, extract_rem_section_from_pdf pages = Except.ok r) := by
  have key : extract_rem_section_from_pdf pages = Except.error secNotFoundMsg ↔
      choose_best_rem_start pages = none := by
    constructor
    · intro h
      cases hc : choose_best_rem_start pages with
      | none => rfl
      | some sp =>
          simp only [extract_rem_section_from_pdf, hc] at h
          exact absurd h (by simp)
    · intro h
      simp only [extract_rem_section_from_pdf, h]
  constructor
  · rw [key, choose_none_iff, candidates_empty_iff]
  · rintro ⟨t, ht, hmt⟩
    cases hc : choose_best_rem_start pages with
    | some sp =>
        simp only [extract_rem_section_from_pdf, hc]
        exact ⟨_, rfl⟩
    | none =>
        have hall := (candidates_empty_iff pages).mp ((choose_none_iff pages).mp hc) t ht
        rw [hmt] at hall
        exact absurd hall (by simp)

/-- C3, witness: a document with no match fails with the error, and one with a
match (even on page 0 only, the front-matter fallback) succeeds. -/
theorem claim_C3_witness :
    extract_rem_section_from_pdf [("annual report".toList : List Char)] =
      Except.error secNotFoundMsg ∧
    ∃ r, extract_rem_section_from_pdf [("remuneration report".toList : List Char)] =
      Except.ok r :=
  ⟨(claim_C3 [("annual report".toList : List Char)]).1.mpr (by decide),
   (claim_C3 [("remuneration report".toList : List Char)]).2 (by decide)⟩

/-- C7: among surviving candidates, a candidate `i` that ties a later candidate
`j` on both the keyword count and the word count is never chosen: on a full
scoring tie the later page index wins. -/
theorem claim_C7 (pages : List (List Char)) (i j : Nat) (hij : i < j)
    (hi : i ∈ surviving_candidates pages) (hj : j ∈ surviving_candidates pages)
    (hscore : score_candidate pages i 5 = score_candidate pages j 5) :
    choose_best_rem_start pages ≠ some i := by
  intro h
  obtain ⟨-, rest, hsort⟩ := choose_some_sorted h
  have hjmem : (j, score_candidate pages j 5) ∈ List.insertionSort scoredRel
      ((surviving_candidates pages).map (fun idx => (idx, score_candidate pages idx 5))) :=
    (List.perm_insertionSort scoredRel _).symm.subset (List.mem_map_of_mem _ hj)
  rw [hsort] at hjmem
  rcases List.mem_cons.mp hjmem with heq | hmem
  · have : j = i := congrArg Prod.fst heq
    omega
  · have hsorted : List.Sorted scoredRel ((i, score_candidate pages i 5) :: rest) := by
      rw [← hsort]
      exact List.sorted_insertionSort scoredRel _
    have hrel := List.rel_of_sorted_cons hsorted _ hmem
    rw [hscore] at hrel
    simp only [scoredRel] at hrel
    omega

/-- C7, witness: twelve identical section-title pages; candidates 5 and 6 tie
on both scores, so 5 is not chosen (the code picks 7, the last full-window
tied candidate). -/
theorem claim_C7_witness :
    choose_best_rem_start (List.replicate 12 ("remuneration report".toList)) ≠ some 5 :=
  claim_C7 (List.replicate 12 ("remuneration report".toList)) 5 6 (by decide)
    (by decide) (by decide) (by decide)

/-- C4: the extracted EPS values come from the window of the smallest-index
candidate whose window matches either EPS pattern — later candidates never
influence the result — and the whole-document pass is used exactly when no
candidate window matched.  `Hdig` records the property of the concrete source
regexes that a matched first capture group always parses as a number. -/
theorem claim_C4 (R : FinRegexes) (pages : List (List Char))
    (Hdig : ∀ w g1 g2, eps_match R w = some (g1, g2) → (_parse_number g1).isSome) :
    (∀ j, j ∈ candidate_pages R pages → windowHasEps R pages j = true →
      (∀ i ∈ candidate_pages R pages, i < j → windowHasEps R pages i = false) →
      scan_candidates R pages (candidate_pages R pages) = some (window_best R pages j) ∧
      extract_financial_performance R pages = finalize_result (window_best R pages j)) ∧
    ((∀ i ∈ candidate_pages R pages, windowHasEps R pages i = false) →
      scan_candidates R pages (candidate_pages R pages) = none ∧
      extract_financial_performance R pages =
        finalize_result (full_doc_pass R pages emptyBest)) := by
  constructor
  · intro j hj hhit hmin
    have hscan := scan_first_hit R pages (candidate_pages R pages) j
      (candidate_pages_pairwise R pages) hj hhit hmin
    refine ⟨hscan, ?_⟩
    have hhit' := hhit
    simp only [windowHasEps] at hhit'
    obtain ⟨m, hm⟩ := Option.isSome_iff_exists.mp hhit'
    have hsome : (window_best R pages j).eps_current.isSome := by
      simp only [window_best, hm]
      exact Hdig _ m.1 m.2 hm
    have hnone : (window_best R pages j).eps_current.isNone = false := by
      obtain ⟨q, hq⟩ := Option.isSome_iff_exists.mp hsome
      rw [hq]
      rfl
    simp only [extract_financial_performance, hscan, Option.getD_some, hnone]
    simp
  · intro hno
    have hscan := scan_no_hit R pages _ hno
    refine ⟨hscan, ?_⟩
    simp only [extract_financial_performance, hscan, Option.getD_none]
    rfl

/-- C4, witness: a one-page document with an EPS phrase; the result is the
window extraction at candidate 0, with all hypotheses discharged concretely. -/
theorem claim_C4_witness :
    extract_financial_performance sampleFinR samplePagesEps =
      finalize_result (window_best sampleFinR samplePagesEps 0) :=
  (((claim_C4 sampleFinR samplePagesEps (by
    intro w g1 g2 h
    by_cases hc : containsSub w ("earnings per share".toList)
    · simp only [eps_match, sampleFinR, if_pos hc] at h
      obtain ⟨rfl, rfl⟩ := Prod.mk.injEq .. ▸ Option.some.inj h
      decide
    · simp only [eps_match, sampleFinR, if_neg hc] at h
      exact Option.noConfusion h)).1) 0 (by decide) (by decide) (by decide)).2

/-- C5, counterexample: with 21 financial-statement pages and the genuine
candidate index 0, the scanned window holds pages 0-19, while the claimed
window `[max(0, idx-10), min(lastPage, idx+20)]` (inclusive) holds pages 0-20:
the two windows differ. -/
theorem claim_C5_counterexample :
    0 ∈ candidate_pages sampleFinR pagesFin21 ∧
    windowPagesOf pagesFin21 0 ≠ windowPagesSpec pagesFin21 0 := by
  constructor
  · decide
  · decide

/-- C5, amended: the scanned window runs from `max(0, idx - 10)` through
`min(lastPageIndex, idx + 19)` inclusive — equivalently, the half-open slice
`pages[max(0, idx-10) : min(pageCount, idx+20)]` — not through `idx + 20`. -/
theorem claim_C5 (pages : List (List Char)) (idx : Nat) :
    windowPagesOf pages idx = windowPagesIncl pages idx := by
  unfold windowPagesOf windowPagesIncl windowStart windowEnd
  cases pages with
  | nil => simp
  | cons p ps =>
      simp only [List.length_cons]
      congr 1
      omega

/-- C6: for each extracted pair, the derived percentage-change field equals
`(current - prior) / prior * 100` exactly when the current value is present and
the prior is present and non-zero, and is absent in every other case. -/
theorem claim_C6 (R : FinRegexes) (pages : List (List Char)) :
    ((extract_financial_performance R pages).eps_change_pct =
      match (extract_financial_performance R pages).eps_current,
            (extract_financial_performance R pages).eps_prior with
      | some c, some p => if p = 0 then none else some ((c - p) / p * 100)
      | _, _ => none) ∧
    ((extract_financial_performance R pages).profit_attributable_change_pct =
      match (extract_financial_performance R pages).profit_attributable_current_k,
            (extract_financial_performance R pages).profit_attributable_prior_k with
      | some c, some p => if p = 0 then none else some ((c - p) / p * 100)
      | _, _ => none) :=
  ⟨rfl, rfl⟩

/-- C8: derived-fact postprocessing is idempotent: if a run completes and
returns a record, a second run on that record changes nothing — every rule
fills its target field only when the field is currently absent. -/
theorem claim_C8 (f g : FactRecord) (h : postprocess_facts f = Except.ok g) :
    postprocess_facts g = Except.ok g := by
  obtain ⟨f1, hsal, hg⟩ := postprocess_inv h
  have hg_sti : lookupFact g "sti_total_esg_weight_pct" =
      lookupFact (stiBlock f1 (getWithDefault f1 "sti_metrics" (Val.vlist [])))
        "sti_total_esg_weight_pct" := by
    rw [hg, esgBlock_lookup_ne _ _ _ _ (by decide), ltipBlock_lookup_ne _ _ _ (by decide)]
  have hg_ltip : lookupFact g "ltip_total_esg_weight_pct" =
      lookupFact (ltipBlock (stiBlock f1 (getWithDefault f1 "sti_metrics" (Val.vlist [])))
        (getWithDefault f1 "ltip_metrics" (Val.vlist []))) "ltip_total_esg_weight_pct" := by
    rw [hg, esgBlock_lookup_ne _ _ _ _ (by decide)]
  have hg_esg : isVNull (pyGet g "esg_metrics_incentives_present") = false := by
    rw [hg]
    exact esg_key_after _ _ _
  have hg_inc : lookupFact g "ceo_salary_increase_pct" =
      lookupFact f1 "ceo_salary_increase_pct" := by
    rw [hg, esgBlock_lookup_ne _ _ _ _ (by decide), ltipBlock_lookup_ne _ _ _ (by decide),
      stiBlock_lookup_ne _ _ _ (by decide)]
  have hg_hist : lookupFact g "ceo_salary_history" = lookupFact f "ceo_salary_history" := by
    rw [hg, esgBlock_lookup_ne _ _ _ _ (by decide), ltipBlock_lookup_ne _ _ _ (by decide),
      stiBlock_lookup_ne _ _ _ (by decide),
      salaryBlock_lookup_ne hsal _ (by decide) (by decide)]
  have hg_stim : lookupFact g "sti_metrics" = lookupFact f1 "sti_metrics" := by
    rw [hg, esgBlock_lookup_ne _ _ _ _ (by decide), ltipBlock_lookup_ne _ _ _ (by decide),
      stiBlock_lookup_ne _ _ _ (by decide)]
  have hg_ltipm : lookupFact g "ltip_metrics" = lookupFact f1 "ltip_metrics" := by
    rw [hg, esgBlock_lookup_ne _ _ _ _ (by decide), ltipBlock_lookup_ne _ _ _ (by decide),
      stiBlock_lookup_ne _ _ _ (by decide)]
  have hsal2 : salaryBlock g = Except.ok g := by
    by_cases hnull : isVNull (pyGet g "ceo_salary_increase_pct") = true
    · have hnull1 : isVNull (pyGet f1 "ceo_salary_increase_pct") = true := by
        unfold pyGet at hnull ⊢
        rw [← hg_inc]
        exact hnull
      obtain ⟨-, hcomp⟩ := salary_key_after hsal hnull1
      apply salaryBlock_idle
      have hhg : getWithDefault g "ceo_salary_history" (Val.vlist []) =
          getWithDefault f "ceo_salary_history" (Val.vlist []) := by
        unfold getWithDefault
        rw [hg_hist]
      rw [hhg]
      exact hcomp
    · exact salaryBlock_skip (eq_false_of_not_true hnull)
  have hsti2 : stiBlock g (getWithDefault g "sti_metrics" (Val.vlist [])) = g := by
    have hmg : getWithDefault g "sti_metrics" (Val.vlist []) =
        getWithDefault f1 "sti_metrics" (Val.vlist []) := by
      unfold getWithDefault
      rw [hg_stim]
    by_cases hnull : isVNull (pyGet g "sti_total_esg_weight_pct") = true
    · have hnull1 : isVNull (pyGet (stiBlock f1 (getWithDefault f1 "sti_metrics" (Val.vlist [])))
          "sti_total_esg_weight_pct") = true := by
        unfold pyGet at hnull ⊢
        rw [← hg_sti]
        exact hnull
      obtain ⟨-, hcomp⟩ := sti_key_after hnull1
      rw [hmg]
      exact stiBlock_idle hcomp
    · exact stiBlock_skip (eq_false_of_not_true hnull)
  have hltip2 : ltipBlock g (getWithDefault g "ltip_metrics" (Val.vlist [])) = g := by
    have hmg : getWithDefault g "ltip_metrics" (Val.vlist []) =
        getWithDefault f1 "ltip_metrics" (Val.vlist []) := by
      unfold getWithDefault
      rw [hg_ltipm]
    by_cases hnull : isVNull (pyGet g "ltip_total_esg_weight_pct") = true
    · have hnull1 : isVNull (pyGet (ltipBlock
          (stiBlock f1 (getWithDefault f1 "sti_metrics" (Val.vlist [])))
          (getWithDefault f1 "ltip_metrics" (Val.vlist [])))
          "ltip_total_esg_weight_pct") = true := by
        unfold pyGet at hnull ⊢
        rw [← hg_ltip]
        exact hnull
      obtain ⟨-, hcomp⟩ := ltip_key_after hnull1
      rw [hmg]
      exact ltipBlock_idle hcomp
    · exact ltipBlock_skip (eq_false_of_not_true hnull)
  unfold postprocess_facts
  simp only [hsal2]
  rw [hsti2, hltip2, esgBlock_skip hg_esg]

/-- C8, witness: a record with an explicit increase and no metric lists is
enriched once with the presence flag, and a second run returns it unchanged. -/
theorem claim_C8_witness : postprocess_facts sampleFactsOut = Except.ok sampleFactsOut :=
  claim_C8 sampleFactsRec sampleFactsOut (by rfl)

/-- C9: a completing postprocessing run may change only the five derived keys;
every other key keeps its original value, and no key present in the input is
removed. -/
theorem claim_C9 (f g : FactRecord) (k : String)
    (hpp : postprocess_facts f = Except.ok g) :
    (k ∉ ["ceo_salary_increase_pct", "ceo_salary_increase_pct_source",
          "sti_total_esg_weight_pct", "ltip_total_esg_weight_pct",
          "esg_metrics_incentives_present"] →
      lookupFact g k = lookupFact f k) ∧
    ((lookupFact f k).isSome → (lookupFact g k).isSome) := by
  obtain ⟨f1, hsal, hg⟩ := postprocess_inv hpp
  constructor
  · intro hk
    simp only [List.mem_cons, List.not_mem_nil, or_false, not_or] at hk
    obtain ⟨h1, h2, h3, h4, h5⟩ := hk
    rw [hg, esgBlock_lookup_ne _ _ _ _ h5, ltipBlock_lookup_ne _ _ _ h4,
      stiBlock_lookup_ne _ _ _ h3, salaryBlock_lookup_ne hsal _ h1 h2]
  · intro hs
    rw [hg]
    exact esgBlock_preserves _ _ _ _ (ltipBlock_preserves _ _ _ (stiBlock_preserves _ _ _
      (salaryBlock_preserves hsal _ hs)))

/-- C9, witness: the foreign key `company_name` is untouched and still present
after postprocessing the sample record. -/
theorem claim_C9_witness :
    lookupFact sampleFactsOut "company_name" = lookupFact sampleFactsRec "company_name" ∧
    (lookupFact sampleFactsOut "company_name").isSome :=
  ⟨(claim_C9 sampleFactsRec sampleFactsOut "company_name" (by rfl)).1 (by decide),
   (claim_C9 sampleFactsRec sampleFactsOut "company_name" (by rfl)).2 (by rfl)⟩

/-- C10: the end page returned by `find_end_page` is either the start index or
a page whose text has at least one in-section keyword occurrence; it is never a
page carrying only break-marker signal. -/
theorem claim_C10 (pages : List (List Char)) (start_idx max_pages min_pages max_gap : Nat) :
    find_end_page pages start_idx max_pages min_pages max_gap = start_idx ∨
    0 < (_score_page (pages.getD
      (find_end_page pages start_idx max_pages min_pages max_gap) [])).1 := by
  unfold find_end_page find_end_page_instr
  exact findEndGo_signal pages start_idx min_pages max_gap _ _ _ (Or.inl rfl)

end CGLLM
